import Mathlib

/-!
Shallow embedding of the bookstore back-office API
(Express + Prisma, TypeScript) and proofs about its transaction,
catalog and identity logic.

Conventions of the embedding:
  * The relational store is a record of lists (books, orders, users);
    Prisma findFirst/findUnique become List.find?, update-where-id
    becomes a map over the list, create becomes an append.
  * TypeScript numbers that hold money or counts are modelled as Nat;
    stock_quantity is modelled as Int because the unguarded Prisma
    decrement can drive it below zero.
  * The zod uuid-format check on book ids is a purely syntactic guard
    that no claim depends on; ids are opaque strings here.
  * Each controller is a pure function from the store (plus the parsed
    request) to the new store and a result value mirroring the HTTP
    response body.
-/

namespace Bookstore

/-- A row of the Book table (prisma model Book). -/
structure Book where
  id : String
  title : String
  writer : String
  publisher : String
  publication_year : Int
  description : Option String
  price : Nat
  stock_quantity : Int
  genre_id : String
  deleted_at : Option Nat
  deriving DecidableEq, Repr

/-- A row of the OrderItem table: one (book, quantity) line item. -/
structure OrderItem where
  book_id : String
  quantity : Nat
  deriving DecidableEq, Repr

/-- A row of the Order table with its nested OrderItem rows. -/
structure Order where
  id : String
  user_id : String
  created_at : Nat
  items : List OrderItem
  deriving DecidableEq, Repr

/-- A row of the User table. -/
structure User where
  id : String
  email : String
  password : String
  username : Option String
  created_at : Nat
  deriving DecidableEq, Repr

/-- The relational store. -/
structure DB where
  books : List Book
  orders : List Order
  users : List User
  deriving DecidableEq, Repr

/-- prisma.book.findFirst with filter id = bid and deleted_at = null. -/
def findActiveBook (db : DB) (bid : String) : Option Book :=
  db.books.find? (fun b => b.id == bid && b.deleted_at.isNone)

/-- The book relation joined through an include clause: lookup by id
with no soft-delete filter (mirrors prisma relation resolution). -/
def findBookById (db : DB) (bid : String) : Option Book :=
  db.books.find? (fun b => b.id == bid)

/-- Placeholder row used to totalise relation lookups; referential
integrity of the store (every order item points at a book row) means
it is never reached on states reachable through the API. -/
def defaultBook : Book :=
  { id := "", title := "", writer := "", publisher := "",
    publication_year := 0, description := none, price := 0,
    stock_quantity := 0, genre_id := "", deleted_at := none }

/-- The caller identity used by createTransaction:
userId = (req as any).user?.id || req.body.user_id.
The body user id is consulted only when the token identity is absent
or its id is falsy (the empty string). -/
def effectiveUserId (tokenId bodyId : Option String) : Option String :=
  match tokenId with
  | some t => if t == "" then bodyId else some t
  | none => bodyId

/-- One response line of a successful createTransaction. -/
structure TxRespItem where
  book_id : String
  title : String
  quantity : Nat
  price_each : Nat
  subtotal : Nat
  deriving DecidableEq, Repr

/-- The data object of a successful createTransaction response. -/
structure TxResponse where
  order_id : String
  user_id : String
  total_price : Nat
  items : List TxRespItem
  deriving DecidableEq, Repr

/-- Outcome of createTransaction, mirroring the HTTP responses:
400 validation error, 404 book not found, 400 insufficient stock,
201 created. -/
inductive TxResult where
  | validationError
  | notFound (bookId : String)
  | insufficientStock (title : String)
  | created (resp : TxResponse)
  deriving DecidableEq, Repr

/-- Discriminator: did the result carry the insufficient-stock error? -/
def TxResult.isInsufficient : TxResult → Bool
  | .insufficientStock _ => true
  | _ => false

/-- Discriminator: did the result carry a created response? -/
def TxResult.isCreated : TxResult → Bool
  | .created _ => true
  | _ => false

/-- Discriminator: did the result carry the not-found error? -/
def TxResult.isNotFound : TxResult → Bool
  | .notFound _ => true
  | _ => false

/-- The user id echoed in a created response, if any. -/
def TxResult.userIdOf : TxResult → Option String
  | .created resp => some resp.user_id
  | _ => none

/-- The validation pre-pass of createTransaction: scan the items in
order; for each, fetch the active book (404 if absent), then compare
requested quantity against current stock (400 if larger). Returns the
first error, or none when every item passes. -/
def checkItems (db : DB) : List OrderItem → Option TxResult
  | [] => none
  | it :: rest =>
    match findActiveBook db it.book_id with
    | none => some (.notFound it.book_id)
    | some b =>
      if b.stock_quantity < (it.quantity : Int) then
        some (.insufficientStock b.title)
      else checkItems db rest

/-- prisma.book.update where id = bid, data stock_quantity decrement q:
every row whose id matches has its stock decremented, unguarded. -/
def bookDecrement (bs : List Book) (bid : String) (q : Nat) : List Book :=
  bs.map (fun b =>
    if b.id == bid then { b with stock_quantity := b.stock_quantity - (q : Int) } else b)

/-- The post-create decrement loop of createTransaction. -/
def decrementStock (bs : List Book) (items : List OrderItem) : List Book :=
  items.foldl (fun acc it => bookDecrement acc it.book_id it.quantity) bs

/-- One line of the order include at creation time: the book relation
select id, title, price, joined by id with no soft-delete filter. -/
def mkRespItem (db : DB) (it : OrderItem) : TxRespItem :=
  let b := (findBookById db it.book_id).getD defaultBook
  { book_id := b.id, title := b.title, quantity := it.quantity,
    price_each := b.price, subtotal := b.price * it.quantity }

/-- POST /transactions (createTransaction). Parameters newOrderId and
now stand for the id and timestamp the store generates. The zod schema
requires a non-empty items array with positive integer quantities; the
uuid-format check on book_id is omitted (purely syntactic). -/
def createTransaction (db : DB) (tokenUserId bodyUserId : Option String)
    (newOrderId : String) (now : Nat) (items : List OrderItem) : DB × TxResult :=
  let uid := (effectiveUserId tokenUserId bodyUserId).getD ""
  if items.isEmpty || items.any (fun it => it.quantity == 0) then
    (db, .validationError)
  else
    match checkItems db items with
    | some e => (db, e)
    | none =>
      let order : Order :=
        { id := newOrderId, user_id := uid, created_at := now, items := items }
      let db1 : DB := { db with orders := db.orders ++ [order] }
      let db2 : DB := { db1 with books := decrementStock db1.books items }
      let respItems := items.map (mkRespItem db)
      let total := respItems.foldl (fun s i => s + i.price_each * i.quantity) 0
      (db2, .created
        { order_id := newOrderId, user_id := uid,
          total_price := total, items := respItems })

/-- The OrderItem table as prisma.orderItem.findMany sees it: every
line item row of every order. -/
def allOrderItems (db : DB) : List OrderItem :=
  (db.orders.map Order.items).flatten

/-- The data object of GET /transactions/statistics. -/
structure Stats where
  totalTransactions : Nat
  totalBooksSold : Nat
  totalRevenue : Nat
  deriving DecidableEq, Repr

/-- GET /transactions/statistics (getStatistics): order count, then a
fold over all order-item rows accumulating quantities and quantity
times the current price of the included book row. -/
def getStatistics (db : DB) : Stats :=
  let items := allOrderItems db
  { totalTransactions := db.orders.length
  , totalBooksSold := items.foldl (fun s it => s + it.quantity) 0
  , totalRevenue := items.foldl
      (fun s it => s + ((findBookById db it.book_id).getD defaultBook).price * it.quantity) 0 }

/-- User summary included on order reads: select id, email. -/
structure UserSummary where
  id : String
  email : String
  deriving DecidableEq, Repr

/-- One line of an order as returned by the read endpoints: the book
relation select id, title, price plus the quantity. -/
structure TxItemView where
  book_id : String
  title : String
  price : Nat
  quantity : Nat
  deriving DecidableEq, Repr

/-- An order as returned by GET /transactions and
GET /transactions/:id. -/
structure TxView where
  id : String
  user_id : String
  created_at : Nat
  user : Option UserSummary
  items : List TxItemView
  deriving DecidableEq, Repr

/-- The include clause of the order reads applied to one line item. -/
def itemView (db : DB) (it : OrderItem) : TxItemView :=
  let b := (findBookById db it.book_id).getD defaultBook
  { book_id := b.id, title := b.title, price := b.price, quantity := it.quantity }

/-- The include clause of the order reads applied to one order row:
user select id, email and items with their book summaries. -/
def orderView (db : DB) (o : Order) : TxView :=
  { id := o.id, user_id := o.user_id, created_at := o.created_at,
    user := (db.users.find? (fun u => u.id == o.user_id)).map
      (fun u => { id := u.id, email := u.email }),
    items := o.items.map (itemView db) }

/-- Most-recent-first order on Order rows (orderBy created_at desc). -/
def createdDescRel (a b : Order) : Prop := b.created_at ≤ a.created_at

instance : DecidableRel createdDescRel := fun a b =>
  Nat.decLe b.created_at a.created_at

instance : IsTotal Order createdDescRel :=
  ⟨fun a b => Nat.le_total b.created_at a.created_at⟩

instance : IsTrans Order createdDescRel :=
  ⟨fun _ _ _ hab hbc => Nat.le_trans hbc hab⟩

/-- GET /transactions (getTransactions): the where clause is empty
when the query string all equals the literal true, else it filters on
the caller's user id; rows are ordered by created_at descending and
carry the user and item includes. -/
def getTransactions (db : DB) (callerId : String) (allQ : String) : List TxView :=
  let filtered :=
    if allQ == "true" then db.orders
    else db.orders.filter (fun o => o.user_id == callerId)
  (List.insertionSort createdDescRel filtered).map (orderView db)

/-- GET /transactions/:id (getTransactionById): findUnique on the
order id with the same include clause, 404 when absent. -/
def getTransactionById (db : DB) (oid : String) : Option TxView :=
  (db.orders.find? (fun o => o.id == oid)).map (orderView db)

/-! ### Catalog: book listing and soft delete -/

/-- Does the character list hay start with the character list needle? -/
def charsStartWith : List Char → List Char → Bool
  | [], _ => true
  | _ :: _, [] => false
  | a :: as, b :: bs => a == b && charsStartWith as bs

/-- Does the character list contain needle as a contiguous run? -/
def charsContain (needle : List Char) : List Char → Bool
  | [] => charsStartWith needle []
  | c :: cs => charsStartWith needle (c :: cs) || charsContain needle cs

/-- Case-insensitive substring match (prisma contains, mode
insensitive). -/
def containsInsensitive (hay pat : String) : Bool :=
  charsContain pat.toLower.data hay.toLower.data

/-- The optional search clause of GET /books: title or writer contains
the search string, case-insensitively; no constraint without a search
term. -/
def matchesSearch (search : Option String) (b : Book) : Bool :=
  match search with
  | none => true
  | some s => containsInsensitive b.title s || containsInsensitive b.writer s

/-- Is the book row live (deleted_at null)? -/
def bookActive (b : Book) : Bool := b.deleted_at.isNone

/-- Ascending title order used by the book listing (the dynamic
orderBy query field is modelled at its default value title; see the
design note on dynamic sort fields). -/
def bookTitleLE (a b : Book) : Prop := a.title ≤ b.title

instance : DecidableRel bookTitleLE := fun a b =>
  inferInstanceAs (Decidable (a.title ≤ b.title))

/-- The data-plus-meta object of GET /books. -/
structure BookListing where
  data : List Book
  total : Nat
  page : Nat
  limit : Nat
  totalPages : Nat
  deriving DecidableEq, Repr

/-- GET /books (getBooks): filter live rows against the search term,
sort by title ascending, then apply skip = (page - 1) * limit and
take = limit; meta carries the filtered count and the ceiling of
total / limit. -/
def getBooks (db : DB) (search : Option String) (page limit : Nat) : BookListing :=
  let filtered := db.books.filter (fun b => bookActive b && matchesSearch search b)
  let total := filtered.length
  let sorted := List.insertionSort bookTitleLE filtered
  { data := (sorted.drop ((page - 1) * limit)).take limit
  , total := total, page := page, limit := limit
  , totalPages := (total + limit - 1) / limit }

/-- Outcome of DELETE /books/:id. -/
inductive DeleteBookResult where
  | notFound
  | deleted
  deriving DecidableEq, Repr

/-- DELETE /books/:id (deleteBook): 404 unless a live row with the id
exists, else set deleted_at to the current time on the row with that
id. -/
def deleteBook (db : DB) (bid : String) (now : Nat) : DB × DeleteBookResult :=
  match findActiveBook db bid with
  | none => (db, .notFound)
  | some _ =>
    ({ db with books := db.books.map (fun b =>
        if b.id == bid then { b with deleted_at := some now } else b) },
     .deleted)

/-! ### Identity: register -/

/-- Modelled from the spec: the zod email-format check lives in the
schema-validation library, which the spec places out of scope as
pre-existing infrastructure; modelled as the minimal syntactic test
that an at-sign occurs. No claim depends on its exact shape. -/
def emailFormatOk (e : String) : Bool := e.data.contains '@'

/-- The zod register schema: well-formed email and a password of at
least six characters (username optional). -/
def registerValid (email password : String) : Bool :=
  emailFormatOk email && decide (6 ≤ password.length)

/-- Modelled from the spec: bcrypt password hashing is out-of-scope
infrastructure; modelled as an opaque-looking total tagging function.
No claim inspects the hash beyond it being stored. -/
def bcryptHash (p : String) : String := String.append "$2a$10$" p

/-- Outcome of POST /auth/register. -/
inductive RegisterResult where
  | validationError
  | conflict
  | created (u : User)
  deriving DecidableEq, Repr

/-- POST /auth/register (register): validate the input, 409 when a
user with the email already exists, else store the user with the
hashed password. newId and now stand for the generated id and
timestamp. -/
def register (db : DB) (newId : String) (now : Nat)
    (email password : String) (username : Option String) : DB × RegisterResult :=
  if registerValid email password then
    match db.users.find? (fun u => u.email == email) with
    | some _ => (db, .conflict)
    | none =>
      let u : User :=
        { id := newId, email := email, password := bcryptHash password,
          username := username, created_at := now }
      ({ db with users := db.users ++ [u] }, .created u)
  else (db, .validationError)

/-! ### Routing: the transactions router -/

/-- The request handlers exported by the transactions controller. -/
inductive Handler where
  | hCreateTransaction
  | hGetTransactions
  | hGetTransactionById
  | hGetStatistics
  deriving DecidableEq, Repr

/-- HTTP methods used by the transactions router. -/
inductive Method where
  | post
  | get
  deriving DecidableEq, Repr

/-- One segment of an Express route pattern: a literal segment or a
named parameter segment. -/
inductive Seg where
  | lit (s : String)
  | param (name : String)
  deriving DecidableEq, Repr

/-- A registered route: method, path pattern, handler. -/
structure Route where
  method : Method
  path : List Seg
  handler : Handler
  deriving DecidableEq, Repr

/-- The transactions router, in source registration order:
post /, get /, get /:id, get /statistics. -/
def transactionsRoutes : List Route :=
  [ { method := .post, path := [], handler := .hCreateTransaction }
  , { method := .get, path := [], handler := .hGetTransactions }
  , { method := .get, path := [.param "id"], handler := .hGetTransactionById }
  , { method := .get, path := [.lit "statistics"], handler := .hGetStatistics } ]

/-- Does a pattern segment match a concrete path segment? A parameter
segment matches any segment. -/
def segMatches : Seg → String → Bool
  | .lit s, t => s == t
  | .param _, _ => true

/-- Does a pattern match a concrete path, segment by segment? -/
def pathMatches : List Seg → List String → Bool
  | [], [] => true
  | s :: ss, t :: ts => segMatches s t && pathMatches ss ts
  | _, _ => false

/-- Express dispatch: the first registered route whose method and
pattern match the request wins. -/
def dispatch (routes : List Route) (m : Method) (path : List String) : Option Handler :=
  (routes.find? (fun r => r.method == m && pathMatches r.path path)).map Route.handler

/-! ### Concrete fixtures used by counterexamples and witnesses -/

/-- Fixture book row with the fields the claims inspect. -/
def mkBook (bid btitle : String) (price : Nat) (stock : Int) (del : Option Nat) : Book :=
  { id := bid, title := btitle, writer := "Ann Writer", publisher := "Pub",
    publication_year := 2020, description := none, price := price,
    stock_quantity := stock, genre_id := "g1", deleted_at := del }

/-- One live book with stock 3, empty orders and users. -/
def dbOneBook : DB :=
  { books := [mkBook "b" "The Book" 10 3 none], orders := [], users := [] }

/-- One live book priced 10 and two orders of quantities 2 and 3. -/
def dbStats : DB :=
  { books := [mkBook "b1" "B1" 10 100 none]
  , orders :=
      [ { id := "o1", user_id := "u1", created_at := 1,
          items := [{ book_id := "b1", quantity := 2 }] }
      , { id := "o2", user_id := "u1", created_at := 2,
          items := [{ book_id := "b1", quantity := 3 }] } ]
  , users := [] }

/-- Two live books: one with small stock, one about to be deleted. -/
def dbTwoBooks : DB :=
  { books := [mkBook "c" "C" 10 3 none, mkBook "bdel" "D" 10 5 none]
  , orders := [], users := [] }

/-- One live book and one pre-existing order referencing it. -/
def dbWithOrder : DB :=
  { books := [mkBook "b1" "B1" 10 5 none]
  , orders :=
      [ { id := "o1", user_id := "u1", created_at := 1,
          items := [{ book_id := "b1", quantity := 2 }] } ]
  , users := [] }

/-- Expected response of the C6 witness request: one copy of the
fixture book, attributed to the token identity u1. -/
def respTokenWins : TxResponse :=
  { order_id := "o1", user_id := "u1", total_price := 10,
    items := [{ book_id := "b", title := "The Book", quantity := 1,
                price_each := 10, subtotal := 10 }] }

/-- Expected response of the C10 witness request: two copies of the
fixture book at price 10. -/
def respTwoCopies : TxResponse :=
  { order_id := "o1", user_id := "u", total_price := 20,
    items := [{ book_id := "b", title := "The Book", quantity := 2,
                price_each := 10, subtotal := 20 }] }

/-! ### Helper lemmas -/

/-- Folding an accumulating sum equals summing a map. -/
theorem foldl_add_map {α : Type} (f : α → Nat) (l : List α) :
    ∀ a : Nat, l.foldl (fun s x => s + f x) a = a + (l.map f).sum := by
  induction l with
  | nil => simp
  | cons x l ih =>
    intro a
    simp only [List.foldl_cons, List.map_cons, List.sum_cons, ih]
    omega

/-- Unpacking a successful active-book lookup. -/
theorem findActiveBook_some {db : DB} {bid : String} {b : Book}
    (h : findActiveBook db bid = some b) :
    b ∈ db.books ∧ b.id = bid ∧ b.deleted_at = none := by
  unfold findActiveBook at h
  have hm := List.mem_of_find?_eq_some h
  have hp := List.find?_some h
  simp only [Bool.and_eq_true, beq_iff_eq, Option.isNone_iff_eq_none] at hp
  exact ⟨hm, hp.1, hp.2⟩

/-- With unique book ids, a live member row is what the active lookup
returns. -/
theorem findActiveBook_of_mem {db : DB}
    (hnd : (db.books.map Book.id).Nodup) {b : Book}
    (hb : b ∈ db.books) (ha : b.deleted_at = none) :
    findActiveBook db b.id = some b := by
  unfold findActiveBook
  cases hfind : db.books.find? (fun x => x.id == b.id && x.deleted_at.isNone) with
  | none =>
    exfalso
    have hall := List.find?_eq_none.mp hfind b hb
    simp [ha] at hall
  | some x =>
    have hxm := List.mem_of_find?_eq_some hfind
    have hxp := List.find?_some hfind
    simp only [Bool.and_eq_true, beq_iff_eq, Option.isNone_iff_eq_none] at hxp
    have hx : x = b := List.inj_on_of_nodup_map hnd hxm hb hxp.1
    rw [hx]

/-- With unique book ids, the include-clause lookup agrees with a
successful active lookup. -/
theorem findBookById_of_active {db : DB} {bid : String} {b : Book}
    (hnd : (db.books.map Book.id).Nodup)
    (h : findActiveBook db bid = some b) :
    findBookById db bid = some b := by
  obtain ⟨hm, hid, -⟩ := findActiveBook_some h
  unfold findBookById
  cases hfind : db.books.find? (fun x => x.id == bid) with
  | none =>
    exfalso
    have hall := List.find?_eq_none.mp hfind b hm
    simp [hid] at hall
  | some x =>
    have hxm := List.mem_of_find?_eq_some hfind
    have hxp := List.find?_some hfind
    simp only [beq_iff_eq] at hxp
    have hx : x = b := List.inj_on_of_nodup_map hnd hxm hm (by rw [hxp, hid])
    rw [hx]

/-- The validation pre-pass passes exactly when every item references
a live book whose stock covers the requested quantity. -/
theorem checkItems_eq_none_iff (db : DB) (items : List OrderItem) :
    checkItems db items = none ↔
      ∀ it ∈ items, ∃ b, findActiveBook db it.book_id = some b ∧
        ¬ b.stock_quantity < (it.quantity : Int) := by
  induction items with
  | nil => simp [checkItems]
  | cons it rest ih =>
    simp only [checkItems]
    cases hfa : findActiveBook db it.book_id with
    | none =>
      simp only [List.mem_cons]
      constructor
      · intro h; cases h
      · intro h
        obtain ⟨b, hb, -⟩ := h it (Or.inl rfl)
        rw [hfa] at hb; cases hb
    | some b =>
      by_cases hlt : b.stock_quantity < (it.quantity : Int)
      · simp only [if_pos hlt, List.mem_cons]
        constructor
        · intro h; cases h
        · intro h
          obtain ⟨b2, hb2, hle⟩ := h it (Or.inl rfl)
          rw [hfa] at hb2
          cases hb2
          exact absurd hlt hle
      · simp only [if_neg hlt, ih, List.mem_cons]
        constructor
        · intro h x hx
          rcases hx with rfl | hx
          · exact ⟨b, hfa, hlt⟩
          · exact h x hx
        · intro h x hx
          exact h x (Or.inr hx)

/-- When every item references a live book and some item over-asks,
the validation pre-pass reports insufficient stock. -/
theorem checkItems_insufficient (db : DB) (items : List OrderItem)
    (hex : ∀ it ∈ items, ∃ b, findActiveBook db it.book_id = some b)
    (hbad : ∃ it ∈ items, ∃ b, findActiveBook db it.book_id = some b ∧
      b.stock_quantity < (it.quantity : Int)) :
    ∃ t, checkItems db items = some (.insufficientStock t) := by
  induction items with
  | nil => simp at hbad
  | cons it rest ih =>
    obtain ⟨b0, hb0⟩ := hex it (List.mem_cons_self it rest)
    simp only [checkItems, hb0]
    by_cases hlt : b0.stock_quantity < (it.quantity : Int)
    · exact ⟨b0.title, by rw [if_pos hlt]⟩
    · rw [if_neg hlt]
      apply ih
      · intro x hx; exact hex x (List.mem_cons_of_mem _ hx)
      · obtain ⟨w, hw, b, hfb, hlt2⟩ := hbad
        rcases List.mem_cons.mp hw with rfl | hw2
        · rw [hb0] at hfb; cases hfb; exact absurd hlt2 hlt
        · exact ⟨w, hw2, b, hfb, hlt2⟩

/-- Total quantity a request orders for a given book id. -/
def sumQty : List OrderItem → String → Nat
  | [], _ => 0
  | it :: rest, bid =>
    (if it.book_id == bid then it.quantity else 0) + sumQty rest bid

/-- The decrement loop subtracts, from every book row, the total
quantity the request orders for that row's id. -/
theorem decrementStock_eq_map : ∀ (items : List OrderItem) (bs : List Book),
    decrementStock bs items = bs.map (fun b =>
      { b with stock_quantity := b.stock_quantity - (sumQty items b.id : Int) }) := by
  intro items
  induction items with
  | nil =>
    intro bs
    simp [decrementStock, sumQty]
  | cons it rest ih =>
    intro bs
    have hstep : decrementStock bs (it :: rest) =
        decrementStock (bookDecrement bs it.book_id it.quantity) rest := rfl
    rw [hstep, ih, bookDecrement, List.map_map]
    apply List.map_congr_left
    intro b _
    simp only [Function.comp_apply, sumQty, beq_iff_eq]
    by_cases h : b.id = it.book_id
    · have h2 : it.book_id = b.id := h.symm
      rw [if_pos h, if_pos h2]
      have harith : b.stock_quantity - (it.quantity : Int) - (sumQty rest b.id : Int)
          = b.stock_quantity - ((it.quantity + sumQty rest b.id : Nat) : Int) := by
        push_cast
        ring
      simp [Book.mk.injEq, harith]
    · have h2 : ¬ it.book_id = b.id := fun e => h e.symm
      rw [if_neg h, if_neg h2]
      simp

/-- A parsed request that fails validation leaves the store untouched
and returns the first validation error. -/
theorem createTransaction_of_check_some (db : DB)
    (tok body : Option String) (oid : String) (now : Nat)
    (items : List OrderItem) (e : TxResult)
    (hne : items ≠ []) (hq : ∀ it ∈ items, it.quantity ≠ 0)
    (hchk : checkItems db items = some e) :
    createTransaction db tok body oid now items = (db, e) := by
  unfold createTransaction
  have h1 : items.isEmpty = false := by
    cases items with
    | nil => exact absurd rfl hne
    | cons x l => rfl
  have h2 : items.any (fun it => it.quantity == 0) = false := by
    rw [List.any_eq_false]
    intro x hx
    simp [hq x hx]
  rw [h1, h2]
  simp only [Bool.or_self, Bool.false_eq_true, if_false, hchk]

/-- A parsed request that passes validation creates the order, runs
the decrement loop, and reports the computed totals. -/
theorem createTransaction_of_check_none (db : DB)
    (tok body : Option String) (oid : String) (now : Nat)
    (items : List OrderItem)
    (hne : items ≠ []) (hq : ∀ it ∈ items, it.quantity ≠ 0)
    (hchk : checkItems db items = none) :
    createTransaction db tok body oid now items =
      ({ books := decrementStock db.books items,
         orders := db.orders ++
           [{ id := oid, user_id := (effectiveUserId tok body).getD "",
              created_at := now, items := items }],
         users := db.users },
       .created
         { order_id := oid,
           user_id := (effectiveUserId tok body).getD "",
           total_price := (items.map (mkRespItem db)).foldl
             (fun s i => s + i.price_each * i.quantity) 0,
           items := items.map (mkRespItem db) }) := by
  unfold createTransaction
  have h1 : items.isEmpty = false := by
    cases items with
    | nil => exact absurd rfl hne
    | cons x l => rfl
  have h2 : items.any (fun it => it.quantity == 0) = false := by
    rw [List.any_eq_false]
    intro x hx
    simp [hq x hx]
  rw [h1, h2]
  simp only [Bool.or_self, Bool.false_eq_true, if_false, hchk]

/-- With unique book ids, a member row is what the include-clause
lookup returns for its id. -/
theorem findBookById_of_mem {db : DB}
    (hnd : (db.books.map Book.id).Nodup) {b : Book} (hb : b ∈ db.books) :
    findBookById db b.id = some b := by
  unfold findBookById
  cases hfind : db.books.find? (fun x => x.id == b.id) with
  | none =>
    exfalso
    have hall := List.find?_eq_none.mp hfind b hb
    simp at hall
  | some x =>
    have hxm := List.mem_of_find?_eq_some hfind
    have hxp := List.find?_some hfind
    simp only [beq_iff_eq] at hxp
    have hx : x = b := List.inj_on_of_nodup_map hnd hxm hb hxp
    rw [hx]

/-- With unique order ids, a member row is what the order lookup
returns for its id. -/
theorem findOrder_of_mem {db : DB}
    (hnd : (db.orders.map Order.id).Nodup) {o : Order} (ho : o ∈ db.orders) :
    db.orders.find? (fun x => x.id == o.id) = some o := by
  cases hfind : db.orders.find? (fun x => x.id == o.id) with
  | none =>
    exfalso
    have hall := List.find?_eq_none.mp hfind o ho
    simp at hall
  | some x =>
    have hxm := List.mem_of_find?_eq_some hfind
    have hxp := List.find?_some hfind
    simp only [beq_iff_eq] at hxp
    have hx : x = o := List.inj_on_of_nodup_map hnd hxm ho hxp
    rw [hx]

/-- The validation pre-pass only ever reports not-found or
insufficient-stock errors. -/
theorem checkItems_not_created (db : DB) :
    ∀ (items : List OrderItem) (resp : TxResponse),
      checkItems db items ≠ some (.created resp) := by
  intro items
  induction items with
  | nil => intro resp h; simp [checkItems] at h
  | cons it rest ih =>
    intro resp h
    simp only [checkItems] at h
    cases hfa : findActiveBook db it.book_id with
    | none => rw [hfa] at h; simp at h
    | some b =>
      rw [hfa] at h
      have h2 : (if b.stock_quantity < (it.quantity : Int) then
          some (TxResult.insufficientStock b.title) else checkItems db rest)
          = some (.created resp) := h
      by_cases hlt : b.stock_quantity < (it.quantity : Int)
      · rw [if_pos hlt] at h2; simp at h2
      · rw [if_neg hlt] at h2; exact ih resp h2

/-- Inversion of a successful createTransaction: the request parsed,
the validation pre-pass passed, and the response is the canonical
record built from the request. -/
theorem createTransaction_created_inversion (db : DB)
    (tok body : Option String) (oid : String) (now : Nat)
    (items : List OrderItem) (resp : TxResponse)
    (h : (createTransaction db tok body oid now items).snd = .created resp) :
    items ≠ [] ∧ (∀ it ∈ items, it.quantity ≠ 0) ∧
    checkItems db items = none ∧
    resp = { order_id := oid,
             user_id := (effectiveUserId tok body).getD "",
             total_price := (items.map (mkRespItem db)).foldl
               (fun s i => s + i.price_each * i.quantity) 0,
             items := items.map (mkRespItem db) } := by
  by_cases hne : items = []
  · subst hne
    simp [createTransaction] at h
  · have hq : ∀ it ∈ items, it.quantity ≠ 0 := by
      by_contra hq
      push_neg at hq
      obtain ⟨it, hit, hz⟩ := hq
      have hany : items.any (fun it => it.quantity == 0) = true := by
        rw [List.any_eq_true]
        exact ⟨it, hit, by simp [hz]⟩
      unfold createTransaction at h
      rw [hany] at h
      simp at h
    cases hchk : checkItems db items with
    | some e =>
      rw [createTransaction_of_check_some db tok body oid now items e hne hq hchk] at h
      cases e with
      | created r =>
        exfalso
        exact checkItems_not_created db items r hchk
      | validationError => simp at h
      | notFound bid => simp at h
      | insufficientStock t => simp at h
    | none =>
      rw [createTransaction_of_check_none db tok body oid now items hne hq hchk] at h
      simp only [TxResult.created.injEq] at h
      exact ⟨hne, hq, rfl, h.symm⟩

/-! ### Claims -/

/-- C1, counterexample: a request containing a line item that over-asks
the stock of its (existing, live) book does not always fail with
insufficient stock: when an earlier item references a missing book the
validation pre-pass stops at not-found instead. In dbOneBook the book
b has stock 3 and the item for b asks 5, yet the result is notFound x. -/
theorem C1_counterexample :
    (findActiveBook dbOneBook "b").map Book.stock_quantity = some 3
  ∧ createTransaction dbOneBook (some "u") none "o1" 0
      [{ book_id := "x", quantity := 1 }, { book_id := "b", quantity := 5 }]
      = (dbOneBook, .notFound "x")
  ∧ (TxResult.notFound "x").isInsufficient = false := by decide

/-- C1, amended: for a parsed request in which every line item
references an existing non-deleted book, if some item's quantity
exceeds its book's current stock then createTransaction fails with
InsufficientStock and performs no mutation: the store is returned
unchanged, so no order row is created and no stock changes. -/
theorem C1_insufficient_stock_no_mutation (db : DB) (tok body : Option String)
    (oid : String) (now : Nat) (items : List OrderItem)
    (hne : items ≠ [])
    (hq : ∀ it ∈ items, it.quantity ≠ 0)
    (hex : ∀ it ∈ items, (findActiveBook db it.book_id).isSome = true)
    (hbad : ∃ it ∈ items, (findActiveBook db it.book_id).any
        (fun b => decide (b.stock_quantity < (it.quantity : Int))) = true) :
    ∃ t, createTransaction db tok body oid now items = (db, .insufficientStock t) := by
  have hex2 : ∀ it ∈ items, ∃ b, findActiveBook db it.book_id = some b := by
    intro it hit
    exact Option.isSome_iff_exists.mp (hex it hit)
  have hbad2 : ∃ it ∈ items, ∃ b, findActiveBook db it.book_id = some b ∧
      b.stock_quantity < (it.quantity : Int) := by
    obtain ⟨it, hit, hany⟩ := hbad
    cases hfa : findActiveBook db it.book_id with
    | none => rw [hfa] at hany; simp [Option.any] at hany
    | some b =>
      rw [hfa] at hany
      simp only [Option.any, decide_eq_true_eq] at hany
      exact ⟨it, hit, b, hfa, hany⟩
  obtain ⟨t, hchk⟩ := checkItems_insufficient db items hex2 hbad2
  exact ⟨t, createTransaction_of_check_some db tok body oid now items _ hne hq hchk⟩

/-- C1, witness: the amended theorem applied to the one-book store and
a single item asking 5 of a book with stock 3. -/
theorem C1_witness :
    (([{ book_id := "b", quantity := 5 }] : List OrderItem) ≠ []
      ∧ (∀ it ∈ ([{ book_id := "b", quantity := 5 }] : List OrderItem), it.quantity ≠ 0)
      ∧ (∀ it ∈ ([{ book_id := "b", quantity := 5 }] : List OrderItem),
          (findActiveBook dbOneBook it.book_id).isSome = true)
      ∧ (∃ it ∈ ([{ book_id := "b", quantity := 5 }] : List OrderItem),
          (findActiveBook dbOneBook it.book_id).any
            (fun b => decide (b.stock_quantity < (it.quantity : Int))) = true))
  ∧ ∃ t, createTransaction dbOneBook (some "u") none "o1" 0
      [{ book_id := "b", quantity := 5 }] = (dbOneBook, .insufficientStock t) :=
  ⟨⟨by decide, by decide, by decide, by decide⟩,
    C1_insufficient_stock_no_mutation dbOneBook (some "u") none "o1" 0
      [{ book_id := "b", quantity := 5 }]
      (by decide) (by decide) (by decide) (by decide)⟩

/-- C3: starting from a store whose stocks are all non-negative, a
single createTransaction that mentions the same book twice passes the
per-item validation and drives that book's stock to minus one — the
code violates the non-negativity invariant the claim states. -/
theorem C3_duplicate_items_drive_stock_negative :
    dbOneBook.books.all (fun b => decide (0 ≤ b.stock_quantity)) = true
  ∧ (createTransaction dbOneBook (some "u") none "o1" 0
      [{ book_id := "b", quantity := 2 }, { book_id := "b", quantity := 2 }]).snd.isCreated
      = true
  ∧ ((createTransaction dbOneBook (some "u") none "o1" 0
      [{ book_id := "b", quantity := 2 }, { book_id := "b", quantity := 2 }]).fst.books.map
        Book.stock_quantity) = [-1] := by decide

/-- C5: the transactions router registers the parameterised get-by-id
route before the statistics route, so a GET with path statistics is
dispatched to the get-by-id handler, which then answers not-found for
a store with no order whose id is the literal statistics. -/
theorem C5_statistics_shadowed_by_id_route :
    dispatch transactionsRoutes .get ["statistics"] = some .hGetTransactionById
  ∧ some Handler.hGetTransactionById ≠ some Handler.hGetStatistics
  ∧ getTransactionById dbWithOrder "statistics" = none := by decide

/-- C6, counterexample: with both a token identity u1 and a body
user id u2 present, the created order is attributed to the token
identity u1, not to the caller-chosen body value u2. -/
theorem C6_counterexample :
    (createTransaction dbOneBook (some "u1") (some "u2") "o1" 0
      [{ book_id := "b", quantity := 1 }]).snd.userIdOf = some "u1"
  ∧ some "u1" ≠ some "u2" := by decide

/-- C6, amended: the user id recorded on a created order is the
token identity whenever one with a non-empty id is present; the body
user_id is consulted only as a fallback when the token identity is
absent. -/
theorem C6_token_identity_wins (db : DB) (tok body : Option String)
    (oid : String) (now : Nat) (items : List OrderItem) (resp : TxResponse)
    (h : (createTransaction db tok body oid now items).snd = .created resp) :
    resp.user_id = (effectiveUserId tok body).getD ""
  ∧ (∀ t, tok = some t → t ≠ "" → resp.user_id = t)
  ∧ (tok = none → resp.user_id = body.getD "") := by
  obtain ⟨-, -, -, hresp⟩ :=
    createTransaction_created_inversion db tok body oid now items resp h
  subst hresp
  refine ⟨rfl, ?_, ?_⟩
  · intro t ht hne
    subst ht
    simp only [effectiveUserId]
    rw [if_neg (by simpa using hne)]
    rfl
  · intro ht
    subst ht
    rfl

/-- C6, witness: the amended theorem applied to a concrete request
carrying token identity u1 and body user id u2. -/
theorem C6_witness :
    ((createTransaction dbOneBook (some "u1") (some "u2") "o1" 0
        [{ book_id := "b", quantity := 1 }]).snd = .created respTokenWins)
  ∧ (respTokenWins.user_id = (effectiveUserId (some "u1") (some "u2")).getD ""
      ∧ (∀ t, (some "u1" : Option String) = some t → t ≠ "" → respTokenWins.user_id = t)
      ∧ ((some "u1" : Option String) = none →
          respTokenWins.user_id = (some "u2" : Option String).getD "")) :=
  ⟨by decide,
    C6_token_identity_wins dbOneBook (some "u1") (some "u2") "o1" 0
      [{ book_id := "b", quantity := 1 }] respTokenWins (by decide)⟩

/-- C10: in every successful createTransaction response, each item's
subtotal is its price_each times its quantity, and the total_price is
the sum of the items' subtotals. -/
theorem C10_response_totals_consistent (db : DB) (tok body : Option String)
    (oid : String) (now : Nat) (items : List OrderItem) (resp : TxResponse)
    (h : (createTransaction db tok body oid now items).snd = .created resp) :
    (∀ i ∈ resp.items, i.subtotal = i.price_each * i.quantity)
  ∧ resp.total_price = (resp.items.map TxRespItem.subtotal).sum := by
  obtain ⟨-, -, -, hresp⟩ :=
    createTransaction_created_inversion db tok body oid now items resp h
  subst hresp
  constructor
  · intro i hi
    simp only [List.mem_map] at hi
    obtain ⟨it, hit, rfl⟩ := hi
    rfl
  · simp only
    rw [foldl_add_map (fun i => i.price_each * i.quantity) (items.map (mkRespItem db)) 0,
      Nat.zero_add]
    congr 1
    apply List.map_congr_left
    intro i hi
    simp only [List.mem_map] at hi
    obtain ⟨it, hit, rfl⟩ := hi
    rfl

/-- C10, witness: the theorem applied to a concrete successful
request for two copies of the one fixture book. -/
theorem C10_witness :
    ((createTransaction dbOneBook (some "u") none "o1" 0
        [{ book_id := "b", quantity := 2 }]).snd = .created respTwoCopies)
  ∧ ((∀ i ∈ respTwoCopies.items, i.subtotal = i.price_each * i.quantity)
      ∧ respTwoCopies.total_price = (respTwoCopies.items.map TxRespItem.subtotal).sum) :=
  ⟨by decide,
    C10_response_totals_consistent dbOneBook (some "u") none "o1" 0
      [{ book_id := "b", quantity := 2 }] respTwoCopies (by decide)⟩

/-- C2: for a parsed request in which every line item references an
existing non-deleted book whose stock covers the requested quantity,
createTransaction succeeds, one order row is appended, every book row
loses exactly the total quantity the request orders for its id, and
the returned total_price is the sum over the items of quantity times
the referenced book's unit price at creation time. -/
theorem C2_valid_order_decrements_and_totals (db : DB) (tok body : Option String)
    (oid : String) (now : Nat) (items : List OrderItem)
    (hnd : (db.books.map Book.id).Nodup)
    (hne : items ≠ [])
    (hq : ∀ it ∈ items, it.quantity ≠ 0)
    (hok : ∀ it ∈ items, (findActiveBook db it.book_id).any
        (fun b => decide ((it.quantity : Int) ≤ b.stock_quantity)) = true) :
    ∃ resp, (createTransaction db tok body oid now items).snd = .created resp
      ∧ (createTransaction db tok body oid now items).fst.books
          = db.books.map (fun b =>
              { b with stock_quantity := b.stock_quantity - (sumQty items b.id : Int) })
      ∧ (createTransaction db tok body oid now items).fst.orders
          = db.orders ++ [{ id := oid, user_id := (effectiveUserId tok body).getD "",
                            created_at := now, items := items }]
      ∧ resp.total_price
          = (items.map (fun it =>
              it.quantity * ((findActiveBook db it.book_id).map Book.price).getD 0)).sum := by
  have hok2 : ∀ it ∈ items, ∃ b, findActiveBook db it.book_id = some b ∧
      ¬ b.stock_quantity < (it.quantity : Int) := by
    intro it hit
    have h := hok it hit
    cases hfa : findActiveBook db it.book_id with
    | none => rw [hfa] at h; simp [Option.any] at h
    | some b =>
      rw [hfa] at h
      simp only [Option.any, decide_eq_true_eq] at h
      exact ⟨b, rfl, Int.not_lt.mpr h⟩
  have hchk : checkItems db items = none := (checkItems_eq_none_iff db items).mpr hok2
  rw [createTransaction_of_check_none db tok body oid now items hne hq hchk]
  refine ⟨_, rfl, ?_, rfl, ?_⟩
  · exact decrementStock_eq_map items db.books
  · simp only
    rw [foldl_add_map (fun i => i.price_each * i.quantity) (items.map (mkRespItem db)) 0,
      Nat.zero_add, List.map_map]
    congr 1
    apply List.map_congr_left
    intro it hit
    obtain ⟨b, hfa, -⟩ := hok2 it hit
    have hfb : findBookById db it.book_id = some b := findBookById_of_active hnd hfa
    simp only [Function.comp_apply, mkRespItem, hfb, hfa, Option.getD_some, Option.map_some]
    exact Nat.mul_comm b.price it.quantity

/-- C2, witness: the theorem applied to the one-book store (stock 3,
price 10) and a request for two copies. -/
theorem C2_witness :
    ((dbOneBook.books.map Book.id).Nodup
      ∧ ([{ book_id := "b", quantity := 2 }] : List OrderItem) ≠ []
      ∧ (∀ it ∈ ([{ book_id := "b", quantity := 2 }] : List OrderItem), it.quantity ≠ 0)
      ∧ (∀ it ∈ ([{ book_id := "b", quantity := 2 }] : List OrderItem),
          (findActiveBook dbOneBook it.book_id).any
            (fun b => decide ((it.quantity : Int) ≤ b.stock_quantity)) = true))
  ∧ ∃ resp, (createTransaction dbOneBook (some "u") none "o1" 7
        [{ book_id := "b", quantity := 2 }]).snd = .created resp
      ∧ (createTransaction dbOneBook (some "u") none "o1" 7
          [{ book_id := "b", quantity := 2 }]).fst.books
          = dbOneBook.books.map (fun b =>
              { b with stock_quantity := b.stock_quantity
                  - (sumQty [{ book_id := "b", quantity := 2 }] b.id : Int) })
      ∧ (createTransaction dbOneBook (some "u") none "o1" 7
          [{ book_id := "b", quantity := 2 }]).fst.orders
          = dbOneBook.orders ++
            [{ id := "o1", user_id := (effectiveUserId (some "u") none).getD "",
               created_at := 7, items := [{ book_id := "b", quantity := 2 }] }]
      ∧ resp.total_price
          = (([{ book_id := "b", quantity := 2 }] : List OrderItem).map (fun it =>
              it.quantity * ((findActiveBook dbOneBook it.book_id).map Book.price).getD 0)).sum :=
  ⟨⟨by decide, by decide, by decide, by decide⟩,
    C2_valid_order_decrements_and_totals dbOneBook (some "u") none "o1" 7
      [{ book_id := "b", quantity := 2 }]
      (by decide) (by decide) (by decide) (by decide)⟩

/-- C4: the statistics operation reports the order count, the sum of
all order-item quantities, and the sum over all order-item rows of
quantity times the referenced book's current price; in particular, on
the store with two orders of quantities 2 and 3 for a book currently
priced 10 it reports 5 books sold and revenue 50. -/
theorem C4_statistics_aggregates (db : DB) :
    (getStatistics db).totalTransactions = db.orders.length
  ∧ (getStatistics db).totalBooksSold = ((allOrderItems db).map OrderItem.quantity).sum
  ∧ (getStatistics db).totalRevenue
      = ((allOrderItems db).map (fun it =>
          it.quantity * ((findBookById db it.book_id).map Book.price).getD 0)).sum
  ∧ getStatistics dbStats
      = { totalTransactions := 2, totalBooksSold := 5, totalRevenue := 50 } := by
  refine ⟨rfl, ?_, ?_, by decide⟩
  · exact (foldl_add_map OrderItem.quantity (allOrderItems db) 0).trans (Nat.zero_add _)
  · refine (foldl_add_map
      (fun it => ((findBookById db it.book_id).getD defaultBook).price * it.quantity)
      (allOrderItems db) 0).trans ?_
    rw [Nat.zero_add]
    congr 1
    apply List.map_congr_left
    intro it _
    cases hfb : findBookById db it.book_id with
    | none => simp [hfb, defaultBook]
    | some b => simp [hfb, Nat.mul_comm]

/-- Lemma: registering with an email some stored user already has
returns Conflict and leaves the store unchanged. -/
theorem register_conflict_of_email_present (db : DB) (nid : String) (now : Nat)
    (e p : String) (un : Option String) (hv : registerValid e p = true)
    (hmem : ∃ u ∈ db.users, u.email = e) :
    register db nid now e p un = (db, .conflict) := by
  obtain ⟨u, hu, he⟩ := hmem
  cases hf : db.users.find? (fun x => x.email == e) with
  | none =>
    exfalso
    have h := List.find?_eq_none.mp hf u hu
    simp [he] at h
  | some x =>
    unfold register
    rw [if_pos hv, hf]

/-- C8: registering a fresh email with valid input succeeds and
appends the one new user; a second register with the same email (any
valid input) returns Conflict and leaves the user set unchanged. -/
theorem C8_duplicate_email_conflict (db : DB) (id1 id2 : String) (now1 now2 : Nat)
    (e p1 p2 : String) (u1 u2 : Option String)
    (hv1 : registerValid e p1 = true)
    (hv2 : registerValid e p2 = true)
    (hfresh : ∀ u ∈ db.users, u.email ≠ e) :
    ∃ w, (register db id1 now1 e p1 u1).snd = .created w
      ∧ w.email = e
      ∧ (register db id1 now1 e p1 u1).fst.users = db.users ++ [w]
      ∧ register (register db id1 now1 e p1 u1).fst id2 now2 e p2 u2
          = ((register db id1 now1 e p1 u1).fst, .conflict) := by
  have hfind : db.users.find? (fun u => u.email == e) = none := by
    rw [List.find?_eq_none]
    intro u hu
    simp [hfresh u hu]
  have h1 : register db id1 now1 e p1 u1
      = ({ db with users := db.users ++ [⟨id1, e, bcryptHash p1, u1, now1⟩] },
         .created ⟨id1, e, bcryptHash p1, u1, now1⟩) := by
    unfold register
    rw [if_pos hv1, hfind]
  refine ⟨⟨id1, e, bcryptHash p1, u1, now1⟩, ?_, rfl, ?_, ?_⟩
  · rw [h1]
  · rw [h1]
  · rw [h1]
    exact register_conflict_of_email_present _ id2 now2 e p2 u2 hv2
      ⟨⟨id1, e, bcryptHash p1, u1, now1⟩,
        List.mem_append_right _ (List.mem_singleton_self _), rfl⟩

/-- C8, witness: the theorem applied to the fixture store (no users)
with two valid register attempts for the same email. -/
theorem C8_witness :
    (registerValid "a@b.c" "hunter2" = true
      ∧ registerValid "a@b.c" "secret7" = true
      ∧ (∀ u ∈ dbOneBook.users, u.email ≠ "a@b.c"))
  ∧ ∃ w, (register dbOneBook "u1" 1 "a@b.c" "hunter2" none).snd = .created w
      ∧ w.email = "a@b.c"
      ∧ (register dbOneBook "u1" 1 "a@b.c" "hunter2" none).fst.users
          = dbOneBook.users ++ [w]
      ∧ register (register dbOneBook "u1" 1 "a@b.c" "hunter2" none).fst
          "u2" 2 "a@b.c" "secret7" none
          = ((register dbOneBook "u1" 1 "a@b.c" "hunter2" none).fst, .conflict) :=
  ⟨⟨by decide, by decide, by decide⟩,
    C8_duplicate_email_conflict dbOneBook "u1" "u2" 1 2 "a@b.c" "hunter2" "secret7"
      none none (by decide) (by decide) (by decide)⟩

/-- Lemma: membership in the transaction listing is membership in the
order table, restricted to the caller's rows unless the query toggle
is the literal true. -/
theorem mem_getTransactions_iff (db : DB) (callerId allQ : String) (v : TxView) :
    v ∈ getTransactions db callerId allQ ↔
      ∃ o, o ∈ db.orders ∧ (allQ = "true" ∨ o.user_id = callerId)
        ∧ v = orderView db o := by
  unfold getTransactions
  simp only [List.mem_map, List.mem_insertionSort]
  by_cases hc : allQ = "true"
  · rw [if_pos (by simp [hc])]
    constructor
    · rintro ⟨o, ho, rfl⟩
      exact ⟨o, ho, Or.inl hc, rfl⟩
    · rintro ⟨o, ho, -, rfl⟩
      exact ⟨o, ho, rfl⟩
  · rw [if_neg (by simp [hc])]
    constructor
    · rintro ⟨o, ho, rfl⟩
      have hm := List.mem_filter.mp ho
      exact ⟨o, hm.1, Or.inr (by simpa using hm.2), rfl⟩
    · rintro ⟨o, ho, hor, rfl⟩
      rcases hor with h | h
      · exact absurd h hc
      · exact ⟨o, List.mem_filter.mpr ⟨ho, by simp [h]⟩, rfl⟩

/-- C9: the transaction listing returns exactly the caller's own
orders unless the query toggle is the literal true, in which case it
returns all orders; the result is ordered by creation time descending
and every returned order carries its items through the book-summary
include. -/
theorem C9_list_scope_and_order (db : DB) (callerId allQ : String) :
    (∀ v, v ∈ getTransactions db callerId allQ ↔
        ∃ o, o ∈ db.orders ∧ (allQ = "true" ∨ o.user_id = callerId)
          ∧ v = orderView db o)
  ∧ (getTransactions db callerId allQ).Pairwise
      (fun a b => b.created_at ≤ a.created_at)
  ∧ ∀ v ∈ getTransactions db callerId allQ,
      ∃ o ∈ db.orders, v.items = o.items.map (itemView db) := by
  refine ⟨mem_getTransactions_iff db callerId allQ, ?_, ?_⟩
  · have hs := List.sorted_insertionSort createdDescRel
      (if allQ == "true" then db.orders
       else db.orders.filter (fun o => o.user_id == callerId))
    exact List.Pairwise.map (orderView db) (fun a b h => h) hs
  · intro v hv
    obtain ⟨o, ho, -, rfl⟩ := (mem_getTransactions_iff db callerId allQ v).mp hv
    exact ⟨o, ho, rfl⟩

/-- Lemma: deleting a live member book succeeds and marks every row
with its id. -/
theorem deleteBook_marks (db : DB) (bid : String) (now : Nat) (b : Book)
    (hb : b ∈ db.books) (ha : b.deleted_at = none) (hbid : b.id = bid) :
    deleteBook db bid now =
      ({ db with books := db.books.map (fun x =>
          if x.id == bid then { x with deleted_at := some now } else x) },
       .deleted) := by
  cases hf : findActiveBook db bid with
  | none =>
    exfalso
    unfold findActiveBook at hf
    have h := List.find?_eq_none.mp hf b hb
    simp [hbid, ha] at h
  | some x =>
    unfold deleteBook
    rw [hf]

/-- Lemma: after the soft delete every row with the deleted id is
dead, so the active lookup for that id fails. -/
theorem findActiveBook_after_delete (db : DB) (bid : String) (now : Nat) :
    findActiveBook ({ db with books := db.books.map (fun x =>
      if x.id == bid then { x with deleted_at := some now } else x) } : DB) bid
      = none := by
  unfold findActiveBook
  rw [List.find?_eq_none]
  intro x hx
  simp only [List.mem_map] at hx
  obtain ⟨y, hy, rfl⟩ := hx
  by_cases h : y.id = bid
  · rw [if_pos (by simp [h])]
    simp
  · rw [if_neg (by simp [h])]
    simp [h]

/-- Lemma: the soft-delete marking preserves the id column. -/
theorem map_id_after_mark (bs : List Book) (bid : String) (now : Nat) :
    (bs.map (fun x =>
      if x.id == bid then { x with deleted_at := some now } else x)).map Book.id
      = bs.map Book.id := by
  rw [List.map_map]
  apply List.map_congr_left
  intro x _
  by_cases h : x.id = bid <;> simp [Function.comp, h]

/-- Lemma: when some item references a book the active lookup cannot
find, and every item for a different book passes both validation
checks, the pre-pass reports not-found for the missing id (the scan
reaches its first failing item, which is the missing-book one). -/
theorem checkItems_notFound_of_missing (db : DB) (bid : String)
    (hdel : findActiveBook db bid = none) :
    ∀ items : List OrderItem,
      (∃ x ∈ items, x.book_id = bid) →
      (∀ x ∈ items, x.book_id ≠ bid →
        (findActiveBook db x.book_id).any
          (fun bk => decide ((x.quantity : Int) ≤ bk.stock_quantity)) = true) →
      checkItems db items = some (.notFound bid) := by
  intro items
  induction items with
  | nil => intro hex _; simp at hex
  | cons it rest ih =>
    intro hex hok
    by_cases h : it.book_id = bid
    · simp only [checkItems]
      rw [h, hdel]
    · have hpass := hok it (List.mem_cons_self it rest) h
      cases hfa : findActiveBook db it.book_id with
      | none => rw [hfa] at hpass; simp [Option.any] at hpass
      | some bk =>
        rw [hfa] at hpass
        simp only [Option.any, decide_eq_true_eq] at hpass
        simp only [checkItems, hfa]
        rw [if_neg (Int.not_lt.mpr hpass)]
        apply ih
        · obtain ⟨x, hx, hxb⟩ := hex
          rcases List.mem_cons.mp hx with rfl | hx2
          · exact absurd hxb h
          · exact ⟨x, hx2, hxb⟩
        · intro x hx hxb
          exact hok x (List.mem_cons_of_mem _ hx) hxb

/-- C7, counterexample: after soft-deleting the book bdel, a new
createTransaction whose item list references bdel does not always
fail with NotFound: when an earlier item over-asks the stock of a
live book, the scan-order validation fails with InsufficientStock
first. Here book c has stock 3, the first item asks 5, and the second
item references the deleted bdel. -/
theorem C7_counterexample :
    (deleteBook dbTwoBooks "bdel" 9).snd = .deleted
  ∧ (createTransaction (deleteBook dbTwoBooks "bdel" 9).fst (some "u") none "o2" 0
      [{ book_id := "c", quantity := 5 }, { book_id := "bdel", quantity := 1 }]).snd
      = .insufficientStock "C"
  ∧ ((createTransaction (deleteBook dbTwoBooks "bdel" 9).fst (some "u") none "o2" 0
      [{ book_id := "c", quantity := 5 }, { book_id := "bdel", quantity := 1 }]).snd).isNotFound
      = false := by decide

/-- C7, amended: soft-deleting a book succeeds; afterwards the book is
absent from every page of the listing under every search term; any
parsed createTransaction whose item list references the deleted book,
and whose remaining items all reference existing non-deleted books
with stock covering their quantities, fails with NotFound for the
deleted book and mutates nothing; and a pre-existing order referencing
the book is still returned by get-by-id — including the book's id,
title and price summary — and by the listing of the ordering user. -/
theorem C7_amended_soft_delete (db : DB) (b : Book) (o : Order)
    (it : OrderItem) (now : Nat)
    (hndB : (db.books.map Book.id).Nodup)
    (hndO : (db.orders.map Order.id).Nodup)
    (hb : b ∈ db.books) (hactive : b.deleted_at = none)
    (ho : o ∈ db.orders) (hit : it ∈ o.items) (hbid : it.book_id = b.id) :
    (deleteBook db b.id now).snd = .deleted
  ∧ (∀ search page limit,
      ∀ x ∈ (getBooks (deleteBook db b.id now).fst search page limit).data,
        x.id ≠ b.id)
  ∧ (∀ tok body oid now2 (items : List OrderItem),
      items ≠ [] →
      (∀ x ∈ items, x.quantity ≠ 0) →
      (∃ x ∈ items, x.book_id = b.id) →
      (∀ x ∈ items, x.book_id ≠ b.id →
        (findActiveBook (deleteBook db b.id now).fst x.book_id).any
          (fun bk => decide ((x.quantity : Int) ≤ bk.stock_quantity)) = true) →
      createTransaction (deleteBook db b.id now).fst tok body oid now2 items
        = ((deleteBook db b.id now).fst, .notFound b.id))
  ∧ getTransactionById (deleteBook db b.id now).fst o.id
      = some (orderView (deleteBook db b.id now).fst o)
  ∧ ({ book_id := b.id, title := b.title, price := b.price,
       quantity := it.quantity } : TxItemView)
      ∈ (orderView (deleteBook db b.id now).fst o).items
  ∧ ∀ q, orderView (deleteBook db b.id now).fst o
      ∈ getTransactions (deleteBook db b.id now).fst o.user_id q := by
  have hmark := deleteBook_marks db b.id now b hb hactive rfl
  rw [hmark]
  set dbm : DB := { db with books := db.books.map (fun x =>
    if x.id == b.id then { x with deleted_at := some now } else x) } with hdbm
  have horders : dbm.orders = db.orders := rfl
  have hndB2 : (dbm.books.map Book.id).Nodup := by
    rw [hdbm]
    simp only
    rw [map_id_after_mark]
    exact hndB
  have hmarkmem : ({ b with deleted_at := some now } : Book) ∈ dbm.books := by
    rw [hdbm]
    simp only [List.mem_map]
    exact ⟨b, hb, by simp⟩
  have hfb : findBookById dbm b.id = some { b with deleted_at := some now } :=
    findBookById_of_mem hndB2 hmarkmem
  have hview : itemView dbm it
      = { book_id := b.id, title := b.title, price := b.price,
          quantity := it.quantity } := by
    unfold itemView
    rw [hbid, hfb]
    rfl
  refine ⟨rfl, ?_, ?_, ?_, ?_, ?_⟩
  · intro search page limit x hx hcontra
    have hx1 : x ∈ List.insertionSort bookTitleLE
        (dbm.books.filter (fun bk => bookActive bk && matchesSearch search bk)) :=
      List.mem_of_mem_drop (List.mem_of_mem_take hx)
    have hx2 := (List.mem_insertionSort bookTitleLE).mp hx1
    have hx3 := List.mem_filter.mp hx2
    have hx4 := hx3.2
    obtain ⟨y, hy, rfl⟩ := List.mem_map.mp hx3.1
    by_cases h : y.id = b.id
    · rw [if_pos (by simp [h])] at hx4
      simp [bookActive] at hx4
    · rw [if_neg (by simp [h])] at hcontra
      exact h hcontra
  · intro tok body oid now2 items hne hq hex hok
    have hdel : findActiveBook dbm b.id = none := by
      rw [hdbm]
      exact findActiveBook_after_delete db b.id now
    exact createTransaction_of_check_some dbm tok body oid now2 items _ hne hq
      (checkItems_notFound_of_missing dbm b.id hdel items hex hok)
  · unfold getTransactionById
    rw [findOrder_of_mem hndO ho]
    rfl
  · rw [← hview]
    exact List.mem_map_of_mem (itemView dbm) hit
  · intro q
    exact (mem_getTransactions_iff dbm o.user_id q _).mpr ⟨o, ho, Or.inr rfl, rfl⟩

/-- C7, witness: the theorem applied to the fixture store with one
live book and one pre-existing order for it. -/
theorem C7_witness :
    ((dbWithOrder.books.map Book.id).Nodup
      ∧ (dbWithOrder.orders.map Order.id).Nodup
      ∧ mkBook "b1" "B1" 10 5 none ∈ dbWithOrder.books
      ∧ (mkBook "b1" "B1" 10 5 none).deleted_at = none
      ∧ ({ id := "o1", user_id := "u1", created_at := 1,
           items := [{ book_id := "b1", quantity := 2 }] } : Order) ∈ dbWithOrder.orders
      ∧ ({ book_id := "b1", quantity := 2 } : OrderItem)
          ∈ ({ id := "o1", user_id := "u1", created_at := 1,
               items := [{ book_id := "b1", quantity := 2 }] } : Order).items
      ∧ ({ book_id := "b1", quantity := 2 } : OrderItem).book_id
          = (mkBook "b1" "B1" 10 5 none).id)
  ∧ ((deleteBook dbWithOrder (mkBook "b1" "B1" 10 5 none).id 9).snd = .deleted
      ∧ (∀ search page limit,
          ∀ x ∈ (getBooks (deleteBook dbWithOrder (mkBook "b1" "B1" 10 5 none).id 9).fst
              search page limit).data,
            x.id ≠ (mkBook "b1" "B1" 10 5 none).id)
      ∧ (∀ tok body oid now2 (items : List OrderItem),
          items ≠ [] →
          (∀ x ∈ items, x.quantity ≠ 0) →
          (∃ x ∈ items, x.book_id = (mkBook "b1" "B1" 10 5 none).id) →
          (∀ x ∈ items, x.book_id ≠ (mkBook "b1" "B1" 10 5 none).id →
            (findActiveBook (deleteBook dbWithOrder (mkBook "b1" "B1" 10 5 none).id 9).fst
                x.book_id).any
              (fun bk => decide ((x.quantity : Int) ≤ bk.stock_quantity)) = true) →
          createTransaction (deleteBook dbWithOrder (mkBook "b1" "B1" 10 5 none).id 9).fst
              tok body oid now2 items
            = ((deleteBook dbWithOrder (mkBook "b1" "B1" 10 5 none).id 9).fst,
               .notFound (mkBook "b1" "B1" 10 5 none).id))
      ∧ getTransactionById (deleteBook dbWithOrder (mkBook "b1" "B1" 10 5 none).id 9).fst
          ({ id := "o1", user_id := "u1", created_at := 1,
             items := [{ book_id := "b1", quantity := 2 }] } : Order).id
          = some (orderView (deleteBook dbWithOrder (mkBook "b1" "B1" 10 5 none).id 9).fst
              { id := "o1", user_id := "u1", created_at := 1,
                items := [{ book_id := "b1", quantity := 2 }] })
      ∧ ({ book_id := (mkBook "b1" "B1" 10 5 none).id,
           title := (mkBook "b1" "B1" 10 5 none).title,
           price := (mkBook "b1" "B1" 10 5 none).price,
           quantity := ({ book_id := "b1", quantity := 2 } : OrderItem).quantity } : TxItemView)
          ∈ (orderView (deleteBook dbWithOrder (mkBook "b1" "B1" 10 5 none).id 9).fst
              { id := "o1", user_id := "u1", created_at := 1,
                items := [{ book_id := "b1", quantity := 2 }] }).items
      ∧ ∀ q, orderView (deleteBook dbWithOrder (mkBook "b1" "B1" 10 5 none).id 9).fst
            { id := "o1", user_id := "u1", created_at := 1,
              items := [{ book_id := "b1", quantity := 2 }] }
          ∈ getTransactions (deleteBook dbWithOrder (mkBook "b1" "B1" 10 5 none).id 9).fst
              ({ id := "o1", user_id := "u1", created_at := 1,
                 items := [{ book_id := "b1", quantity := 2 }] } : Order).user_id q) :=
  ⟨⟨by decide, by decide, by decide, by decide, by decide, by decide, by decide⟩,
    C7_amended_soft_delete dbWithOrder
      (mkBook "b1" "B1" 10 5 none)
      { id := "o1", user_id := "u1", created_at := 1,
        items := [{ book_id := "b1", quantity := 2 }] }
      { book_id := "b1", quantity := 2 } 9
      (by decide) (by decide) (by decide) (by decide) (by decide) (by decide) (by decide)⟩

end Bookstore
